import Mathlib

/-!
Shallow embedding of the rusty-image-tools-wasm core (src/lib.rs) in Lean 4.

Modelling conventions:
* An RGB pixel (`[u8; 3]` in the source) is a triple of `Fin 256`.
* A decoded image (`DynamicImage`) is a grid of RGB pixels stored as a list of
  rows, top to bottom, each row left to right; the `image` crate's
  `pixels()` iterator visits pixels in exactly that row-major order, and
  `to_rgb()` discards the alpha channel, which the model drops at the decode
  boundary.
* `f32` arithmetic is modelled exactly over `ℚ`; Rust's `%` on floats (the
  remainder keeping the dividend's sign) is modelled by `fRem`.
* External collaborators (the image codec's decode/encode/resize, and the
  `exif` crate's container parser) are parameters of the entry points;
  a Rust panic (`unwrap` / `expect`) is modelled by `Option`, `none` meaning
  the call aborts with no result.
* The `HashMap` colour tally is modelled as an association list in first
  insertion order; its key set and counts match the source, and the
  iteration order of the keys is modelled as that insertion order (the
  source's hash order is an arbitrary deterministic order of the same keys).
-/

attribute [local semireducible] Rat.mul Rat.inv Rat.add Rat.sub

namespace RustyImageTools

/-- Raw encoded image bytes. -/
def Bytes := List Nat

/-- An RGB pixel: three 8-bit channels, as in `[u8; 3]`. -/
structure Rgb where
  r : Fin 256
  g : Fin 256
  b : Fin 256
deriving DecidableEq, Repr

/-- A decoded pixel grid: rows top-to-bottom, each row left-to-right. -/
structure Img where
  rows : List (List Rgb)
deriving DecidableEq, Repr

/-- All pixels of an image in the row-major order of the crate's `pixels()`. -/
def Img.allPixels (img : Img) : List Rgb := img.rows.flatten

/-- `DynamicImage::fliph`: mirror each row (horizontal flip). -/
def Img.fliph (img : Img) : Img := ⟨img.rows.map List.reverse⟩

/-- `DynamicImage::flipv`: reverse the order of rows (vertical flip). -/
def Img.flipv (img : Img) : Img := ⟨img.rows.reverse⟩

/-- `DynamicImage::rotate90`: rotate 90° clockwise. -/
def Img.rotate90 (img : Img) : Img := ⟨(List.transpose img.rows).map List.reverse⟩

/-- `DynamicImage::rotate180`: rotate 180°. -/
def Img.rotate180 (img : Img) : Img := ⟨(img.rows.map List.reverse).reverse⟩

/-- `DynamicImage::rotate270`: rotate 270° clockwise (90° counter-clockwise). -/
def Img.rotate270 (img : Img) : Img := ⟨(List.transpose img.rows).reverse⟩

/-- `apply_orientation` (src/lib.rs lines 46-66): map an EXIF orientation code
to its geometric correction.  Codes 5 and 7 flip horizontally first, then
rotate; every unlisted code is the identity. -/
def apply_orientation (img : Img) (orientation : Nat) : Img :=
  match orientation with
  | 1 => img
  | 2 => img.fliph
  | 3 => img.rotate180
  | 4 => img.flipv
  | 5 => (img.fliph).rotate270
  | 6 => img.rotate90
  | 7 => (img.fliph).rotate90
  | 8 => img.rotate270
  | _ => img

/-- One EXIF field as the `exif` crate exposes it: its tag's canonical name,
its display value rendered with units (both external renderings), and
`field.value.get_uint(0)` when the value reads as an unsigned integer. -/
structure ExifField where
  tagName : String
  displayValue : String
  uintValue : Option Nat
deriving DecidableEq, Repr

/-- The result of a successful EXIF container parse: the orientation field of
the primary IFD when present (`get_field(Tag::Orientation, In::PRIMARY)`),
and the full field list (`exif.fields()`). -/
structure ExifData where
  orientationField : Option ExifField
  fields : List ExifField
deriving DecidableEq, Repr

/-- The external EXIF container parser (`Reader::read_from_container`):
either parsed data or an error description string. -/
def ExifParser := Bytes → Except String ExifData

/-- The external image decoder (`image::load_from_memory`):
`none` models a decode failure. -/
def Decoder := Bytes → Option Img

/-- `read_orientation` (src/lib.rs lines 16-43): parse EXIF, look up the
orientation tag in the primary IFD, read it as an unsigned integer, and cast
to `u16`; every failure path yields the default code 1. -/
def read_orientation (parse : ExifParser) (image_data : Bytes) : Nat :=
  match parse image_data with
  | .error _ => 1
  | .ok exif =>
    match exif.orientationField with
    | none => 1
    | some field =>
      match field.uintValue with
      | none => 1
      | some val => val % 65536

/-- `parse_exif_data` (src/lib.rs lines 144-171): on success one
(tag name, display value) pair per field, in order; on failure exactly one
sentinel pair carrying the error description. -/
def parse_exif_data (parse : ExifParser) (image_data : Bytes) :
    List (String × String) :=
  match parse image_data with
  | .ok exif => exif.fields.map fun field => (field.tagName, field.displayValue)
  | .error e => [("Failed to read EXIF data", e)]

/-- Truncation toward zero, as Rust's float-to-integer-part truncation. -/
def ratTrunc (q : ℚ) : ℤ := if 0 ≤ q then ⌊q⌋ else ⌈q⌉

/-- Rust's `%` on floats: remainder with the sign of the dividend,
`x - y * trunc (x / y)`. -/
def fRem (x y : ℚ) : ℚ := x - y * (ratTrunc (x / y) : ℚ)

/-- `rgb_to_hsb` (src/lib.rs lines 69-91) with the `f32` arithmetic modelled
exactly over `ℚ`: returns `(hue, saturation, brightness)`. -/
def rgb_to_hsb (rgb : Rgb) : ℚ × ℚ × ℚ :=
  let r : ℚ := (rgb.r : ℚ) / 255
  let g : ℚ := (rgb.g : ℚ) / 255
  let b : ℚ := (rgb.b : ℚ) / 255
  let mx := max r (max g b)
  let mn := min r (min g b)
  let delta := mx - mn
  let hue :=
    if delta = 0 then 0
    else if mx = r then 60 * fRem ((g - b) / delta) 6
    else if mx = g then 60 * ((b - r) / delta + 2)
    else 60 * ((r - g) / delta + 4)
  let saturation := if mx = 0 then 0 else delta / mx
  (hue, saturation, mx)

/-- `hsb_diff` (src/lib.rs lines 94-99): absolute componentwise differences,
returned as `(saturation diff, brightness diff, hue diff)`. -/
def hsb_diff (hsb1 hsb2 : ℚ × ℚ × ℚ) : ℚ × ℚ × ℚ :=
  (|hsb1.2.1 - hsb2.2.1|, |hsb1.2.2 - hsb2.2.2|, |hsb1.1 - hsb2.1|)

/-- The acceptance test of the unique-colour loop (src/lib.rs line 118):
a candidate is far enough from an accepted colour when all three HSB
differences strictly exceed the thresholds 0.1, 0.1 and 10.0. -/
def colorDistinct (color unique : Rgb) : Prop :=
  1 / 10 < (hsb_diff (rgb_to_hsb color) (rgb_to_hsb unique)).1 ∧
  1 / 10 < (hsb_diff (rgb_to_hsb color) (rgb_to_hsb unique)).2.1 ∧
  10 < (hsb_diff (rgb_to_hsb color) (rgb_to_hsb unique)).2.2

instance (color unique : Rgb) : Decidable (colorDistinct color unique) := by
  unfold colorDistinct; exact instDecidableAnd

/-- One `*color_count.entry(rgb).or_insert(0) += 1` step on the tally,
modelled on an association list: bump the existing key or append a new one. -/
def insertTally : List (Rgb × Nat) → Rgb → List (Rgb × Nat)
  | [], p => [(p, 1)]
  | (q, n) :: rest, p =>
    if q = p then (q, n + 1) :: rest else (q, n) :: insertTally rest p

/-- The colour tally of src/lib.rs lines 103-108: occurrence count per
distinct RGB value, keys in first-insertion order. -/
def color_count (pixels : List Rgb) : List (Rgb × Nat) :=
  pixels.foldl insertTally []

/-- `all_colors` (src/lib.rs line 110): the tally's key list. -/
def all_colors (pixels : List Rgb) : List Rgb :=
  (color_count pixels).map Prod.fst

/-- The greedy selection loop of src/lib.rs lines 114-125: accept a candidate
only if it is `colorDistinct` from every colour accepted so far, and stop as
soon as 20 colours are accepted (later candidates are never examined). -/
def selectLoop : List Rgb → List Rgb → List Rgb
  | [], acc => acc
  | color :: rest, acc =>
    if ∀ u ∈ acc, colorDistinct color u then
      if 20 ≤ (acc ++ [color]).length then acc ++ [color]
      else selectLoop rest (acc ++ [color])
    else
      selectLoop rest acc

/-- The accepted colours of an image's pixel list, before hex rendering. -/
def selectColors (pixels : List Rgb) : List Rgb :=
  selectLoop (all_colors pixels) []

/-- One uppercase hex digit of a value below 16. -/
def hexChar (n : Nat) : Char :=
  if n < 10 then Char.ofNat (48 + n) else Char.ofNat (55 + n)

/-- The `#RRGGBB` rendering of src/lib.rs lines 130-138: `write!` with
`{:02X}` per channel — two uppercase, zero-padded hex digits each. -/
def toHex (color : Rgb) : String :=
  ⟨['#', hexChar (color.r / 16), hexChar (color.r % 16),
    hexChar (color.g / 16), hexChar (color.g % 16),
    hexChar (color.b / 16), hexChar (color.b % 16)]⟩

/-- The pure core of `get_unique_colors`: tally, greedy selection, and hex
rendering of the accepted colours, in acceptance order. -/
def uniqueColorStrings (pixels : List Rgb) : List String :=
  (selectColors pixels).map toHex

/-- `get_unique_colors` (src/lib.rs lines 101-142): decode (a failed decode
panics via `expect`, modelled as `none`), then extract the colour strings
from the decoded pixel grid. -/
def get_unique_colors (decode : Decoder) (image_data : Bytes) :
    Option (List String) :=
  (decode image_data).map fun img => uniqueColorStrings img.allPixels

/-- The `ImageAnalysis` record (src/lib.rs lines 8-12). -/
structure ImageAnalysis where
  exif_data : List (String × String)
  unique_colors : List String
deriving DecidableEq, Repr

/-- `analyze_image` (src/lib.rs lines 173-185): EXIF tag pairs plus unique
colours; the whole call aborts (`none`) when the bytes do not decode. -/
def analyze_image (parse : ExifParser) (decode : Decoder)
    (image_data : Bytes) : Option ImageAnalysis :=
  match get_unique_colors decode image_data with
  | none => none
  | some colors => some ⟨parse_exif_data parse image_data, colors⟩

/-- The resampling kernels of `image::imageops::FilterType`. -/
inductive FilterType where
  | CatmullRom | Gaussian | Lanczos3 | Nearest | Triangle
deriving DecidableEq, Repr

/-- The output codecs of `image::ImageFormat` used by `resize_image`. -/
inductive ImageFormat where
  | Png | WebP | Jpeg | Avif | Bmp | Gif | Tiff | Ico
deriving DecidableEq, Repr

/-- The filter-tag match of src/lib.rs lines 205-212: five named kernels,
anything else defaults to `Triangle`. -/
def filterOf (filter : String) : FilterType :=
  if filter = "catmull_rom" then .CatmullRom
  else if filter = "gaussian" then .Gaussian
  else if filter = "lanczos3" then .Lanczos3
  else if filter = "nearest" then .Nearest
  else if filter = "triangle" then .Triangle
  else .Triangle

/-- The format-tag match of src/lib.rs lines 216-226: eight named codecs,
anything else defaults to `Png`. -/
def formatOf (format : String) : ImageFormat :=
  if format = "png" then .Png
  else if format = "webp" then .WebP
  else if format = "jpeg" then .Jpeg
  else if format = "avif" then .Avif
  else if format = "bmp" then .Bmp
  else if format = "gif" then .Gif
  else if format = "tiff" then .Tiff
  else if format = "ico" then .Ico
  else .Png

/-- `resize_image` (src/lib.rs lines 187-235).  The external collaborators
are parameters: `toRgb8` is the crate's alpha-flattening
(`DynamicImage::to_rgb8`), `resizeFill` is `resize_to_fill`, and `encode` is
`write_to` (whose failure, `unwrap`, aborts the call — `none`).  A failed
decode likewise aborts. -/
def resize_image (decode : Decoder) (parse : ExifParser)
    (toRgb8 : Img → Img) (resizeFill : Img → Nat → Nat → FilterType → Img)
    (encode : ImageFormat → Img → Option Bytes)
    (image_data : Bytes) (width height : Nat) (format filter : String) :
    Option Bytes :=
  match decode image_data with
  | none => none
  | some img =>
    let orientation := read_orientation parse image_data
    let oriented := apply_orientation img orientation
    let normalized := if format = "jpeg" then toRgb8 oriented else oriented
    let resized := resizeFill normalized width height (filterOf filter)
    encode (formatOf format) resized

/-! Concrete inputs used to instantiate the external collaborators in
counterexamples and witnesses. -/

/-- Pure black. -/
def black : Rgb := ⟨0, 0, 0⟩

/-- Almost pure black: its brightness differs from black's by only 1/255. -/
def nearBlack : Rgb := ⟨0, 0, 1⟩

/-- A saturated orange, perceptually far from black on all three HSB axes. -/
def orange : Rgb := ⟨255, 128, 0⟩

/-- A one-row, two-pixel image: black then near-black. -/
def twoPixelImg : Img := ⟨[[black, nearBlack]]⟩

/-- A single-pixel black image. -/
def blackImg : Img := ⟨[[black]]⟩

/-- An EXIF parser that always fails. -/
def parseFailing : ExifParser := fun _ => .error "broken EXIF segment"

/-- An EXIF parser that succeeds with no orientation field and no fields. -/
def parseNoOrientation : ExifParser := fun _ => .ok ⟨none, []⟩

/-- An EXIF parser whose orientation field does not read as an unsigned
integer. -/
def parseBadOrientation : ExifParser :=
  fun _ => .ok ⟨some ⟨"Orientation", "corrupt", none⟩, []⟩

/-- An EXIF parser reporting orientation code 6. -/
def parseOrientation6 : ExifParser :=
  fun _ => .ok ⟨some ⟨"Orientation", "rotate 90", some 6⟩, []⟩

/-- An EXIF parser reporting orientation code 2 (horizontal flip). -/
def parseOrientation2 : ExifParser :=
  fun _ => .ok ⟨some ⟨"Orientation", "flip horizontal", some 2⟩, []⟩

/-- An EXIF parser that succeeds with one ordinary tag field. -/
def parseOneField : ExifParser :=
  fun _ => .ok ⟨none, [⟨"Make", "ACME", none⟩]⟩

/-- A decoder that always fails. -/
def decodeFailing : Decoder := fun _ => none

/-- A decoder that always yields the two-pixel image. -/
def decodeTwoPixel : Decoder := fun _ => some twoPixelImg

/-- A decoder that always yields the single-pixel black image. -/
def decodeBlack : Decoder := fun _ => some blackImg

/-! Helper lemmas about the greedy selection loop, the tally and the hex
rendering. -/

theorem hsb_diff_comm (x y : ℚ × ℚ × ℚ) : hsb_diff x y = hsb_diff y x := by
  unfold hsb_diff
  rw [abs_sub_comm, abs_sub_comm x.2.2, abs_sub_comm x.1]

theorem colorDistinct_symm {a b : Rgb} (h : colorDistinct a b) :
    colorDistinct b a := by
  unfold colorDistinct at h ⊢
  rw [hsb_diff_comm]
  exact h

theorem colorDistinct_irrefl (a : Rgb) : ¬ colorDistinct a a := by
  intro h
  have h1 := h.1
  simp only [hsb_diff, sub_self, abs_zero] at h1
  exact absurd h1 (by norm_num)

theorem selectLoop_length_le (cs : List Rgb) :
    ∀ acc : List Rgb, acc.length < 20 → (selectLoop cs acc).length ≤ 20 := by
  induction cs with
  | nil => intro acc h; simpa [selectLoop] using Nat.le_of_lt h
  | cons c rest ih =>
    intro acc h
    simp only [selectLoop]
    split
    · split
      · simp only [List.length_append, List.length_cons, List.length_nil]
        omega
      · rename_i h20
        exact ih _ (by simp only [List.length_append, List.length_cons,
          List.length_nil] at h20 ⊢; omega)
    · exact ih acc h

theorem selectLoop_pairwise (cs : List Rgb) :
    ∀ acc : List Rgb, acc.Pairwise colorDistinct →
      (selectLoop cs acc).Pairwise colorDistinct := by
  induction cs with
  | nil => intro acc h; simpa [selectLoop] using h
  | cons c rest ih =>
    intro acc h
    simp only [selectLoop]
    split
    · rename_i hall
      have hacc : (acc ++ [c]).Pairwise colorDistinct := by
        refine List.pairwise_append.mpr ⟨h, List.pairwise_singleton _ _, ?_⟩
        intro a ha b hb
        have hb' : b = c := by simpa using hb
        subst hb'
        exact colorDistinct_symm (hall a ha)
      split
      · exact hacc
      · exact ih _ hacc
    · exact ih acc h

theorem selectColors_pairwise (pixels : List Rgb) :
    (selectColors pixels).Pairwise colorDistinct :=
  selectLoop_pairwise _ [] List.Pairwise.nil

theorem hexChar_inj :
    ∀ a b : Fin 16, hexChar a.val = hexChar b.val → a.val = b.val := by decide

theorem toHex_injective : Function.Injective toHex := by
  intro a b h
  unfold toHex at h
  injection h with hd
  simp only [List.cons.injEq, and_true] at hd
  obtain ⟨-, h1, h2, h3, h4, h5, h6⟩ := hd
  have har : a.r.val < 256 := a.r.isLt
  have hbr : b.r.val < 256 := b.r.isLt
  have hag : a.g.val < 256 := a.g.isLt
  have hbg : b.g.val < 256 := b.g.isLt
  have hab : a.b.val < 256 := a.b.isLt
  have hbb : b.b.val < 256 := b.b.isLt
  have hr : a.r = b.r := by
    apply Fin.ext
    have e1 : a.r.val / 16 = b.r.val / 16 :=
      hexChar_inj ⟨_, by omega⟩ ⟨_, by omega⟩ h1
    have e2 : a.r.val % 16 = b.r.val % 16 :=
      hexChar_inj ⟨_, by omega⟩ ⟨_, by omega⟩ h2
    omega
  have hg : a.g = b.g := by
    apply Fin.ext
    have e3 : a.g.val / 16 = b.g.val / 16 :=
      hexChar_inj ⟨_, by omega⟩ ⟨_, by omega⟩ h3
    have e4 : a.g.val % 16 = b.g.val % 16 :=
      hexChar_inj ⟨_, by omega⟩ ⟨_, by omega⟩ h4
    omega
  have hb : a.b = b.b := by
    apply Fin.ext
    have e5 : a.b.val / 16 = b.b.val / 16 :=
      hexChar_inj ⟨_, by omega⟩ ⟨_, by omega⟩ h5
    have e6 : a.b.val % 16 = b.b.val % 16 :=
      hexChar_inj ⟨_, by omega⟩ ⟨_, by omega⟩ h6
    omega
  clear h1 h2 h3 h4 h5 h6
  cases a
  cases b
  simp_all

theorem insertTally_keys (p : Rgb) :
    ∀ m : List (Rgb × Nat),
      (insertTally m p).map Prod.fst =
        if p ∈ m.map Prod.fst then m.map Prod.fst
        else m.map Prod.fst ++ [p] := by
  intro m
  induction m with
  | nil => simp [insertTally]
  | cons qn rest ih =>
    by_cases hqp : qn.1 = p
    · obtain ⟨q, n⟩ := qn
      subst hqp
      simp [insertTally]
    · obtain ⟨q, n⟩ := qn
      simp only at hqp
      by_cases hp : p ∈ rest.map Prod.fst
      · simp [insertTally, hqp, ih, hp]
      · simp [insertTally, hqp, ih, hp, Ne.symm hqp]

theorem color_count_keys_nodup (pixels : List Rgb) :
    ((color_count pixels).map Prod.fst).Nodup := by
  suffices h : ∀ m : List (Rgb × Nat), (m.map Prod.fst).Nodup →
      ((pixels.foldl insertTally m).map Prod.fst).Nodup from h [] (by simp)
  induction pixels with
  | nil => intro m hm; simpa using hm
  | cons p rest ih =>
    intro m hm
    simp only [List.foldl_cons]
    refine ih _ ?_
    rw [insertTally_keys]
    split
    · exact hm
    · rename_i hp
      exact List.nodup_append.mpr
        ⟨hm, List.nodup_singleton _, by simpa [List.disjoint_singleton] using hp⟩

theorem ratTrunc_eq_zero {q : ℚ} (h1 : -1 < q) (h2 : q < 1) : ratTrunc q = 0 := by
  unfold ratTrunc
  split
  · rename_i h0
    exact Int.floor_eq_zero_iff.mpr (Set.mem_Ico.mpr ⟨h0, h2⟩)
  · rename_i h0
    exact Int.ceil_eq_zero_iff.mpr (Set.mem_Ioc.mpr ⟨h1, le_of_lt (lt_of_not_le h0)⟩)

theorem fRem_small {x : ℚ} (h1 : -1 ≤ x) (h2 : x ≤ 1) : fRem x 6 = x := by
  unfold fRem
  rw [ratTrunc_eq_zero (by linarith) (by linarith)]
  simp

theorem sector_quotient_bounds {x y mx mn : ℚ} (hxm : x ≤ mx) (hmx : mn ≤ x)
    (hym : y ≤ mx) (hmy : mn ≤ y) (hd : 0 < mx - mn) :
    -1 ≤ (x - y) / (mx - mn) ∧ (x - y) / (mx - mn) ≤ 1 := by
  constructor
  · rw [le_div_iff₀ hd]
    linarith
  · rw [div_le_one hd]
    linarith

/-! Claim theorems. -/

/-- C3: `apply_orientation` maps each orientation code to exactly the
specified operation — 1 to the identity, 2 to a horizontal flip, 3 to a 180°
rotation, 4 to a vertical flip, 5 to a horizontal flip followed by a 270°
clockwise (90° counter-clockwise) rotation, 6 to a 90° clockwise rotation,
7 to a horizontal flip followed by a 90° clockwise rotation, 8 to a 270°
clockwise rotation, and any other code (0, or 9 and above) to the identity;
for codes 5 and 7 the flip is applied strictly before the rotation. -/
theorem apply_orientation_matches_exif_table (img : Img) :
    apply_orientation img 1 = img ∧
    apply_orientation img 2 = img.fliph ∧
    apply_orientation img 3 = img.rotate180 ∧
    apply_orientation img 4 = img.flipv ∧
    apply_orientation img 5 = (img.fliph).rotate270 ∧
    apply_orientation img 6 = img.rotate90 ∧
    apply_orientation img 7 = (img.fliph).rotate90 ∧
    apply_orientation img 8 = img.rotate270 ∧
    apply_orientation img 0 = img ∧
    ∀ n : Nat, apply_orientation img (n + 9) = img :=
  ⟨rfl, rfl, rfl, rfl, rfl, rfl, rfl, rfl, rfl, fun _ => rfl⟩

/-- C7: `read_orientation` never fails outward — when EXIF parsing fails,
when the orientation tag is absent, and when the tag value cannot be read as
an unsigned integer it returns the default code 1, and otherwise it returns
the tag's value truncated to 16 bits. -/
theorem read_orientation_never_fails :
    (∀ (parse : ExifParser) (image_data : Bytes) (e : String),
        parse image_data = .error e →
        read_orientation parse image_data = 1) ∧
    (∀ (parse : ExifParser) (image_data : Bytes) (exifData : ExifData),
        parse image_data = .ok exifData → exifData.orientationField = none →
        read_orientation parse image_data = 1) ∧
    (∀ (parse : ExifParser) (image_data : Bytes) (exifData : ExifData)
        (field : ExifField),
        parse image_data = .ok exifData →
        exifData.orientationField = some field → field.uintValue = none →
        read_orientation parse image_data = 1) ∧
    (∀ (parse : ExifParser) (image_data : Bytes) (exifData : ExifData)
        (field : ExifField) (val : Nat),
        parse image_data = .ok exifData →
        exifData.orientationField = some field → field.uintValue = some val →
        read_orientation parse image_data = val % 65536) := by
  refine ⟨fun parse d e h => ?_, fun parse d ex h h2 => ?_,
    fun parse d ex f h h2 h3 => ?_, fun parse d ex f v h h2 h3 => ?_⟩
  · simp [read_orientation, h]
  · simp [read_orientation, h, h2]
  · simp [read_orientation, h, h2, h3]
  · simp [read_orientation, h, h2, h3]

/-- C7 witness: each of the four paths of `read_orientation_never_fails` at a
concrete parser and input. -/
theorem read_orientation_never_fails_witness :
    read_orientation parseFailing [] = 1 ∧
    read_orientation parseNoOrientation [] = 1 ∧
    read_orientation parseBadOrientation [] = 1 ∧
    read_orientation parseOrientation6 [] = 6 :=
  ⟨read_orientation_never_fails.1 parseFailing [] "broken EXIF segment" rfl,
   read_orientation_never_fails.2.1 parseNoOrientation [] ⟨none, []⟩ rfl rfl,
   read_orientation_never_fails.2.2.1 parseBadOrientation []
     ⟨some ⟨"Orientation", "corrupt", none⟩, []⟩
     ⟨"Orientation", "corrupt", none⟩ rfl rfl rfl,
   read_orientation_never_fails.2.2.2 parseOrientation6 []
     ⟨some ⟨"Orientation", "rotate 90", some 6⟩, []⟩
     ⟨"Orientation", "rotate 90", some 6⟩ 6 rfl rfl rfl⟩

/-- C8: `parse_exif_data` returns, when the EXIF container parse fails,
exactly one pair whose tag name is "Failed to read EXIF data" and whose value
is the error description; on a successful parse it returns one
(tag name, display value) pair per field, in order, adding no sentinel. -/
theorem parse_exif_data_sentinel_or_fields :
    (∀ (parse : ExifParser) (image_data : Bytes) (e : String),
        parse image_data = .error e →
        parse_exif_data parse image_data = [("Failed to read EXIF data", e)]) ∧
    (∀ (parse : ExifParser) (image_data : Bytes) (exifData : ExifData),
        parse image_data = .ok exifData →
        parse_exif_data parse image_data =
          exifData.fields.map fun field => (field.tagName, field.displayValue)) := by
  refine ⟨fun parse d e h => ?_, fun parse d ex h => ?_⟩ <;>
    simp [parse_exif_data, h]

/-- C8 witness: the sentinel pair on a failing parse, and the one-pair-per-
field rendering on a successful parse with a single field. -/
theorem parse_exif_data_sentinel_or_fields_witness :
    parse_exif_data parseFailing [] =
      [("Failed to read EXIF data", "broken EXIF segment")] ∧
    parse_exif_data parseOneField [] = [("Make", "ACME")] :=
  ⟨parse_exif_data_sentinel_or_fields.1 parseFailing [] "broken EXIF segment" rfl,
   parse_exif_data_sentinel_or_fields.2 parseOneField []
     ⟨none, [⟨"Make", "ACME", none⟩]⟩ rfl⟩

/-- C6: when the input bytes cannot be decoded as an image, both entry points
abort — `analyze_image` and `resize_image` return no partial or default
result (the `none` outcome models the Rust panic). -/
theorem undecodable_input_aborts_both_entry_points :
    ∀ (parse : ExifParser) (decode : Decoder) (toRgb8 : Img → Img)
      (resizeFill : Img → Nat → Nat → FilterType → Img)
      (encode : ImageFormat → Img → Option Bytes)
      (image_data : Bytes) (width height : Nat) (format filter : String),
      decode image_data = none →
      analyze_image parse decode image_data = none ∧
      resize_image decode parse toRgb8 resizeFill encode image_data
        width height format filter = none := by
  intro parse decode toRgb8 resizeFill encode image_data width height fmt flt h
  exact ⟨by simp [analyze_image, get_unique_colors, h],
         by simp [resize_image, h]⟩

/-- C6 witness: both entry points at a decoder that fails on the given
bytes. -/
theorem undecodable_input_aborts_both_entry_points_witness :
    analyze_image parseFailing decodeFailing [] = none ∧
    resize_image decodeFailing parseFailing (fun i => i) (fun i _ _ _ => i)
      (fun _ _ => some []) [] 100 100 "png" "triangle" = none :=
  undecodable_input_aborts_both_entry_points parseFailing decodeFailing
    (fun i => i) (fun i _ _ _ => i) (fun _ _ => some []) [] 100 100
    "png" "triangle" rfl

/-- C9: each of the five filter tags resolves to its kernel and every other
filter string to `Triangle`; each of the eight format tags resolves to its
codec and every other format string to `Png`; and `resize_image` on
unrecognized tags behaves exactly as on the default tags — unrecognized tags
never propagate as errors. -/
theorem resize_tag_resolution_with_defaults :
    (filterOf "catmull_rom" = .CatmullRom ∧ filterOf "gaussian" = .Gaussian ∧
     filterOf "lanczos3" = .Lanczos3 ∧ filterOf "nearest" = .Nearest ∧
     filterOf "triangle" = .Triangle) ∧
    (∀ filter : String,
        filter ∉ ["catmull_rom", "gaussian", "lanczos3", "nearest", "triangle"] →
        filterOf filter = .Triangle) ∧
    (formatOf "png" = .Png ∧ formatOf "webp" = .WebP ∧
     formatOf "jpeg" = .Jpeg ∧ formatOf "avif" = .Avif ∧
     formatOf "bmp" = .Bmp ∧ formatOf "gif" = .Gif ∧
     formatOf "tiff" = .Tiff ∧ formatOf "ico" = .Ico) ∧
    (∀ format : String,
        format ∉ ["png", "webp", "jpeg", "avif", "bmp", "gif", "tiff", "ico"] →
        formatOf format = .Png) ∧
    (∀ (decode : Decoder) (parse : ExifParser) (toRgb8 : Img → Img)
        (resizeFill : Img → Nat → Nat → FilterType → Img)
        (encode : ImageFormat → Img → Option Bytes)
        (image_data : Bytes) (width height : Nat) (format filter : String),
        format ∉ ["png", "webp", "jpeg", "avif", "bmp", "gif", "tiff", "ico"] →
        filter ∉ ["catmull_rom", "gaussian", "lanczos3", "nearest", "triangle"] →
        resize_image decode parse toRgb8 resizeFill encode image_data
          width height format filter =
        resize_image decode parse toRgb8 resizeFill encode image_data
          width height "png" "triangle") := by
  refine ⟨⟨rfl, rfl, rfl, rfl, rfl⟩, fun flt h => ?_,
    ⟨rfl, rfl, rfl, rfl, rfl, rfl, rfl, rfl⟩, fun fmt h => ?_,
    fun decode parse toRgb8 resizeFill encode d w ht fmt flt hf hl => ?_⟩
  · simp only [List.mem_cons, List.not_mem_nil, or_false, not_or] at h
    simp [filterOf, h.1, h.2.1, h.2.2.1, h.2.2.2.1, h.2.2.2.2]
  · simp only [List.mem_cons, List.not_mem_nil, or_false, not_or] at h
    simp [formatOf, h.1, h.2.1, h.2.2.1, h.2.2.2.1, h.2.2.2.2.1,
      h.2.2.2.2.2.1, h.2.2.2.2.2.2.1, h.2.2.2.2.2.2.2]
  · simp only [List.mem_cons, List.not_mem_nil, or_false, not_or] at hf hl
    simp [resize_image, filterOf, formatOf, hf.1, hf.2.1, hf.2.2.1,
      hf.2.2.2.1, hf.2.2.2.2.1, hf.2.2.2.2.2.1, hf.2.2.2.2.2.2.1,
      hf.2.2.2.2.2.2.2, hl.1, hl.2.1, hl.2.2.1, hl.2.2.2.1, hl.2.2.2.2]

/-- C9 witness: an unrecognized tag string resolves to the default kernel and
codec, and `resize_image` on it coincides with the default-tag call. -/
theorem resize_tag_resolution_with_defaults_witness :
    filterOf "bogus" = .Triangle ∧ formatOf "bogus" = .Png ∧
    resize_image decodeBlack parseFailing (fun i => i) (fun i _ _ _ => i)
      (fun _ _ => some []) [] 100 100 "bogus" "bogus" =
    resize_image decodeBlack parseFailing (fun i => i) (fun i _ _ _ => i)
      (fun _ _ => some []) [] 100 100 "png" "triangle" :=
  ⟨resize_tag_resolution_with_defaults.2.1 "bogus" (by decide),
   resize_tag_resolution_with_defaults.2.2.2.1 "bogus" (by decide),
   resize_tag_resolution_with_defaults.2.2.2.2 decodeBlack parseFailing
     (fun i => i) (fun i _ _ _ => i) (fun _ _ => some []) [] 100 100
     "bogus" "bogus" (by decide) (by decide)⟩

/-- C4: any two distinct colours in the output of the unique-colour
extraction come from accepted RGB values whose three pairwise HSB
differences all strictly exceed the thresholds — saturation difference
above 0.1, brightness difference above 0.1, and hue difference above 10. -/
theorem unique_colors_pairwise_hsb_distinct :
    ∀ (pixels : List Rgb) (s1 s2 : String),
      s1 ∈ uniqueColorStrings pixels → s2 ∈ uniqueColorStrings pixels →
      s1 ≠ s2 →
      ∃ c1 c2 : Rgb, s1 = toHex c1 ∧ s2 = toHex c2 ∧
        c1 ∈ selectColors pixels ∧ c2 ∈ selectColors pixels ∧
        1 / 10 < (hsb_diff (rgb_to_hsb c1) (rgb_to_hsb c2)).1 ∧
        1 / 10 < (hsb_diff (rgb_to_hsb c1) (rgb_to_hsb c2)).2.1 ∧
        10 < (hsb_diff (rgb_to_hsb c1) (rgb_to_hsb c2)).2.2 := by
  intro ps s1 s2 h1 h2 hne
  obtain ⟨c1, hc1, rfl⟩ := List.mem_map.mp h1
  obtain ⟨c2, hc2, rfl⟩ := List.mem_map.mp h2
  have hcd : colorDistinct c1 c2 :=
    (selectColors_pairwise ps).forall (fun _ _ => colorDistinct_symm) hc1 hc2
      (fun he => hne (he ▸ rfl))
  exact ⟨c1, c2, rfl, rfl, hc1, hc2, hcd.1, hcd.2.1, hcd.2.2⟩

/-- C4 witness: the theorem applied to a two-colour image whose two hex
strings are both accepted. -/
theorem unique_colors_pairwise_hsb_distinct_witness :
    ∃ c1 c2 : Rgb, "#000000" = toHex c1 ∧ "#FF8000" = toHex c2 ∧
      c1 ∈ selectColors [black, orange] ∧ c2 ∈ selectColors [black, orange] ∧
      1 / 10 < (hsb_diff (rgb_to_hsb c1) (rgb_to_hsb c2)).1 ∧
      1 / 10 < (hsb_diff (rgb_to_hsb c1) (rgb_to_hsb c2)).2.1 ∧
      10 < (hsb_diff (rgb_to_hsb c1) (rgb_to_hsb c2)).2.2 :=
  unique_colors_pairwise_hsb_distinct [black, orange] "#000000" "#FF8000"
    (by decide) (by decide) (by decide)

/-- C5: the unique-colour extraction returns at most 20 hex colour strings
for every decodable input, and once the 20th colour is accepted the loop
returns at once — the remaining tallied colours are not evaluated. -/
theorem unique_colors_capped_at_20 :
    (∀ (decode : Decoder) (image_data : Bytes) (colors : List String),
        get_unique_colors decode image_data = some colors →
        colors.length ≤ 20) ∧
    (∀ (color : Rgb) (rest acc : List Rgb),
        (∀ u ∈ acc, colorDistinct color u) → acc.length = 19 →
        selectLoop (color :: rest) acc = acc ++ [color]) := by
  constructor
  · intro decode image_data colors h
    unfold get_unique_colors at h
    cases hd : decode image_data with
    | none =>
      rw [hd] at h
      exact Option.noConfusion h
    | some img =>
      rw [hd] at h
      injection h with h
      subst h
      simpa [uniqueColorStrings, selectColors] using
        selectLoop_length_le (all_colors img.allPixels) [] (by simp)
  · intro color rest acc hall hlen
    simp only [selectLoop]
    rw [if_pos hall, if_pos]
    simp [List.length_append, hlen]

/-- C5 witness: both conjuncts at concrete inputs — a decodable single-colour
image, and an accepted 20th colour followed by an unexamined candidate. -/
theorem unique_colors_capped_at_20_witness :
    (["#000000"] : List String).length ≤ 20 ∧
    selectLoop (orange :: [nearBlack]) (List.replicate 19 black) =
      List.replicate 19 black ++ [orange] :=
  ⟨unique_colors_capped_at_20.1 decodeBlack [] ["#000000"] (by decide),
   unique_colors_capped_at_20.2 orange [nearBlack] (List.replicate 19 black)
     (by decide) (by decide)⟩

/-- C10: after a decode, the tally has each distinct RGB value exactly once
as a key, the accepted colours are pairwise distinct, and the rendered hex
strings are pairwise distinct. -/
theorem unique_colors_strings_nodup :
    ∀ pixels : List Rgb,
      ((color_count pixels).map Prod.fst).Nodup ∧
      (selectColors pixels).Nodup ∧
      (uniqueColorStrings pixels).Nodup := by
  intro ps
  have hnd : (selectColors ps).Nodup := by
    refine List.Pairwise.imp ?_ (selectColors_pairwise ps)
    intro a b hab hEq
    subst hEq
    exact colorDistinct_irrefl _ hab
  exact ⟨color_count_keys_nodup ps, hnd, hnd.map toHex_injective⟩

/-- C2 counterexample: on the pixel (2, 0, 1) the red-sector formula gives
hue −30, which is not in [0, 360) — Rust's `%` keeps the dividend's sign, so
the sector value is not wrapped into [0, 360). -/
theorem rgb_to_hsb_hue_can_be_negative :
    (rgb_to_hsb ⟨2, 0, 1⟩).1 = -30 ∧ ¬ (0 ≤ (rgb_to_hsb ⟨2, 0, 1⟩).1) :=
  ⟨by decide, by decide⟩

/-- C2 amended: for every RGB pixel, `rgb_to_hsb` returns a hue in
[−60, 300] — the piecewise 60°-sector value, whose `% 6.0` remainder keeps
the dividend's sign, so red-sector hues lie in [−60, 60] instead of being
wrapped into [0, 360) — a saturation in [0, 1], and a brightness in
[0, 1]. -/
theorem rgb_to_hsb_range (rgb : Rgb) :
    -60 ≤ (rgb_to_hsb rgb).1 ∧ (rgb_to_hsb rgb).1 ≤ 300 ∧
    0 ≤ (rgb_to_hsb rgb).2.1 ∧ (rgb_to_hsb rgb).2.1 ≤ 1 ∧
    0 ≤ (rgb_to_hsb rgb).2.2 ∧ (rgb_to_hsb rgb).2.2 ≤ 1 := by
  have h255 : (0:ℚ) < 255 := by norm_num
  have hr0 : 0 ≤ (rgb.r : ℚ)/255 := by positivity
  have hr1 : (rgb.r : ℚ)/255 ≤ 1 := by
    rw [div_le_one h255]
    exact_mod_cast Nat.le_of_lt_succ rgb.r.isLt
  have hg0 : 0 ≤ (rgb.g : ℚ)/255 := by positivity
  have hg1 : (rgb.g : ℚ)/255 ≤ 1 := by
    rw [div_le_one h255]
    exact_mod_cast Nat.le_of_lt_succ rgb.g.isLt
  have hb0 : 0 ≤ (rgb.b : ℚ)/255 := by positivity
  have hb1 : (rgb.b : ℚ)/255 ≤ 1 := by
    rw [div_le_one h255]
    exact_mod_cast Nat.le_of_lt_succ rgb.b.isLt
  simp only [rgb_to_hsb]
  set r := (rgb.r : ℚ)/255 with hrdef
  set g := (rgb.g : ℚ)/255 with hgdef
  set b := (rgb.b : ℚ)/255 with hbdef
  set mx := max r (max g b) with hmxdef
  set mn := min r (min g b) with hmndef
  have hrmx : r ≤ mx := le_max_left _ _
  have hgmx : g ≤ mx := le_max_of_le_right (le_max_left _ _)
  have hbmx : b ≤ mx := le_max_of_le_right (le_max_right _ _)
  have hmnr : mn ≤ r := min_le_left _ _
  have hmng : mn ≤ g := min_le_of_right_le (min_le_left _ _)
  have hmnb : mn ≤ b := min_le_of_right_le (min_le_right _ _)
  have hmx1 : mx ≤ 1 := max_le hr1 (max_le hg1 hb1)
  have hmx0 : 0 ≤ mx := le_trans hr0 hrmx
  have hmn0 : 0 ≤ mn := le_min hr0 (le_min hg0 hb0)
  have hdnn : 0 ≤ mx - mn := by linarith
  refine ⟨?_, ?_, ?_, ?_, ?_, ?_⟩
  · split_ifs with hd0 hmr hmg
    · norm_num
    · have hdpos : 0 < mx - mn := lt_of_le_of_ne hdnn (Ne.symm hd0)
      obtain ⟨hq1, hq2⟩ := sector_quotient_bounds hgmx hmng hbmx hmnb hdpos
      rw [fRem_small hq1 hq2]
      linarith
    · have hdpos : 0 < mx - mn := lt_of_le_of_ne hdnn (Ne.symm hd0)
      obtain ⟨hq1, hq2⟩ := sector_quotient_bounds hbmx hmnb hrmx hmnr hdpos
      linarith
    · have hdpos : 0 < mx - mn := lt_of_le_of_ne hdnn (Ne.symm hd0)
      obtain ⟨hq1, hq2⟩ := sector_quotient_bounds hrmx hmnr hgmx hmng hdpos
      linarith
  · split_ifs with hd0 hmr hmg
    · norm_num
    · have hdpos : 0 < mx - mn := lt_of_le_of_ne hdnn (Ne.symm hd0)
      obtain ⟨hq1, hq2⟩ := sector_quotient_bounds hgmx hmng hbmx hmnb hdpos
      rw [fRem_small hq1 hq2]
      linarith
    · have hdpos : 0 < mx - mn := lt_of_le_of_ne hdnn (Ne.symm hd0)
      obtain ⟨hq1, hq2⟩ := sector_quotient_bounds hbmx hmnb hrmx hmnr hdpos
      linarith
    · have hdpos : 0 < mx - mn := lt_of_le_of_ne hdnn (Ne.symm hd0)
      obtain ⟨hq1, hq2⟩ := sector_quotient_bounds hrmx hmnr hgmx hmng hdpos
      linarith
  · split_ifs with h0
    · norm_num
    · have hmxpos : 0 < mx := lt_of_le_of_ne hmx0 (Ne.symm h0)
      exact div_nonneg hdnn (le_of_lt hmxpos)
  · split_ifs with h0
    · norm_num
    · have hmxpos : 0 < mx := lt_of_le_of_ne hmx0 (Ne.symm h0)
      rw [div_le_one hmxpos]
      linarith
  · exact hmx0
  · exact hmx1

/-- C1 counterexample: with a decoder yielding the two-pixel image (black,
near-black) and EXIF orientation 2 (horizontal flip), `analyze_image`
returns the colours extracted from the uncorrected grid ("#000000"), while
extraction from the orientation-corrected grid would return "#000001" — the
orientation correction is not applied before the unique-colour extraction. -/
theorem analyze_image_ignores_orientation :
    (analyze_image parseOrientation2 decodeTwoPixel []).map
        ImageAnalysis.unique_colors = some ["#000000"] ∧
    uniqueColorStrings ((apply_orientation twoPixelImg
        (read_orientation parseOrientation2 [])).allPixels) = ["#000001"] ∧
    (analyze_image parseOrientation2 decodeTwoPixel []).map
        ImageAnalysis.unique_colors ≠
      some (uniqueColorStrings ((apply_orientation twoPixelImg
        (read_orientation parseOrientation2 [])).allPixels)) :=
  ⟨by decide, by decide, by decide⟩

/-- C1 amended: in the Analyze entry point the unique colours are extracted
from the decoded pixel grid as-is; the orientation correction is not applied
before the Unique Color Extractor runs (it is applied only inside
`resize_image`). -/
theorem analyze_extracts_from_decoded_grid :
    ∀ (parse : ExifParser) (decode : Decoder) (image_data : Bytes) (img : Img),
      decode image_data = some img →
      (analyze_image parse decode image_data).map ImageAnalysis.unique_colors =
        some (uniqueColorStrings img.allPixels) := by
  intro parse decode image_data img h
  simp [analyze_image, get_unique_colors, h]

/-- C1 witness: the amended theorem at the concrete two-pixel decoder. -/
theorem analyze_extracts_from_decoded_grid_witness :
    (analyze_image parseOrientation2 decodeTwoPixel []).map
        ImageAnalysis.unique_colors =
      some (uniqueColorStrings twoPixelImg.allPixels) :=
  analyze_extracts_from_decoded_grid parseOrientation2 decodeTwoPixel []
    twoPixelImg rfl

end RustyImageTools
